import Mathlib

/-!
# Verification of the AGiXT-Interactive data-hook layer

A shallow embedding of the repository's data-fetching hooks (the `use*`
hooks wrapping GraphQL queries with schema validation and fallback
semantics) and of the chain-panel action handlers, together with theorems
settling the specification's testable properties.

Conventions of the embedding:
* JavaScript `undefined`/missing values are `Option.none`; JS string
  truthiness (`undefined` and `''` are falsy) is `jsTruthy`.
* A fetcher's asynchronous run is an `Except Err α`: `.error` is a
  rejected promise (an exception propagating out of the fetcher),
  `.ok` a fulfilled one.
* The SWR cache (`useSWR`) is modelled by `runSWR`: a `none` key skips
  the fetcher and yields the configured `fallbackData`; a present key
  invokes the fetcher.
* The network and the schema parsers are abstract parameters collected
  in an `Env` record; the list of issued requests is computed alongside
  each fetcher following the same control flow as the source.
-/

namespace AGiXT

/-- JS string truthiness for an optional string: `undefined` and `''`
are falsy, every other string is truthy. -/
def jsTruthy : Option String → Bool
  | none => false
  | some s => s != ""

/-- JS `a || b` on optional strings: `b` when `a` is falsy. -/
def jsOr (a b : Option String) : Option String :=
  if jsTruthy a then a else b

/-- An error value: a rejected promise / thrown exception, carrying a
message. -/
structure Err where
  msg : String
deriving Repr, DecidableEq

/-- An agent record (schema layer): name, owning company name (present
once `useAgents` attaches it), default flag. -/
structure Agent where
  name : String
  companyName : Option String
  default : Bool
deriving Repr, DecidableEq

/-- A company record: id, name, primary flag, its agents, and the
current user's role in it. -/
structure Company where
  id : String
  name : String
  primary : Bool
  agents : List Agent
  myRole : Option String
deriving Repr, DecidableEq

/-- The user record, with the zeroed shape used as `useUser`'s
fallback. -/
structure User where
  id : String
  email : String
  firstName : String
  lastName : String
  companies : List Company
deriving Repr, DecidableEq

/-- The zeroed user record `useUser` falls back to. -/
def zeroUser : User :=
  { id := "", email := "", firstName := "", lastName := "", companies := [] }

/-- A prompt record. -/
structure Prompt where
  name : String
  category : String
  content : String
deriving Repr, DecidableEq

/-- A provider record. -/
structure Provider where
  name : String
deriving Repr, DecidableEq

/-- An invitation record. -/
structure Invitation where
  id : String
  companyId : Option String
deriving Repr, DecidableEq

/-- Command-argument metadata returned for a command name. -/
structure CommandArgs where
  args : List String
deriving Repr, DecidableEq

/-- One step of a chain: the agent it runs as and the prompt/command it
references. -/
structure ChainStep where
  step : Nat
  agentName : String
  prompt : String
deriving Repr, DecidableEq

/-- A chain: a name and its ordered list of steps. -/
structure Chain where
  name : String
  steps : List ChainStep
deriving Repr, DecidableEq

/-- One message of a conversation. -/
structure ChatMessage where
  role : String
  message : String
  timestamp : String
deriving Repr, DecidableEq

/-- A conversation: id and its ordered messages. -/
structure Conversation where
  id : String
  messages : List ChatMessage
deriving Repr, DecidableEq

/-- A conversation-list edge. -/
structure ConversationEdge where
  id : String
  conversationName : String
deriving Repr, DecidableEq

/-- The company shape of the REST `/v1/user` response used by
`useOldActiveCompany`. -/
structure OldUserCompany where
  id : String
  roleId : String
deriving Repr, DecidableEq

/-- The value type of `useAgent`: the agent found (or `null`) and its
command list. -/
structure AgentAndCommands where
  agent : Option Agent
  commands : List String
deriving Repr, DecidableEq

/-- A network request issued by a fetcher: a GraphQL operation with its
variable, or a REST-style call through the context client. -/
inductive Req where
  | gql (operation : String) (arg : Option String)
  | rest (endpoint : String) (arg : Option String)
deriving Repr, DecidableEq

/-- The external world a hook run observes: the `agixt-agent` cookie,
the GraphQL transport (one request function per operation), the schema
parsers, the REST-style context client, and `JSON.stringify`. Raw
GraphQL responses are opaque strings fed to the parsers. -/
structure Env where
  cookieAgent : Option String
  requestAgent : Option String → Except Err String
  parseAgent : String → Except Err AgentAndCommands
  requestChain : String → Except Err String
  parseChain : String → Except Err Chain
  requestCommandArgs : String → Except Err String
  parseCommandArgs : String → Except Err CommandArgs
  requestProvider : Option String → Except Err String
  parseProvider : String → Except Err Provider
  requestProviders : Except Err String
  parseProviders : String → Except Err (List Provider)
  requestUser : Except Err String
  parseUser : String → Except Err User
  requestInvitations : Option String → Except Err String
  parseInvitations : String → Except Err (List Invitation)
  requestPrompts : Except Err (Option (List Prompt))
  requestPromptCategories : Except Err (Option (List String))
  requestChains : Except Err String
  parseChains : String → Except Err (List Chain)
  requestConversation : String → Except Err (Option Conversation)
  requestConversations : Except Err String
  parseConversations : String → Except Err (List ConversationEdge)
  getCommands : String → Except Err (List String)
  getCompaniesOld : Except Err (List Company)
  getInvitationsOld : Option String → Except Err (List String)
  getUserRest : Except Err (List OldUserCompany)
  getChain : String → Except Err Chain
  renameChain : String → String → Except Err Unit
  stringify : List ChainStep → String

/-- Observable result of rendering one hook: the data SWR hands back,
whether the fetcher was invoked, and the network requests it issued. -/
structure HookResult (α : Type) where
  data : α
  fetcherInvoked : Bool
  requests : List Req
deriving Repr, DecidableEq

/-- `useSWR` semantics: a `none` key is inert — the fetcher is never
invoked and the configured `fallbackData` is returned; a present key
invokes the fetcher. -/
def runSWR {α : Type} (key : Option String) (fetch : Unit → α × List Req)
    (fallback : α) : HookResult α :=
  match key with
  | none => { data := fallback, fetcherInvoked := false, requests := [] }
  | some _ =>
    let r := fetch ()
    { data := r.1, fetcherInvoked := true, requests := r.2 }

/-! ## Chain hooks -/

/-- Body of the `useChain` fetcher before its catch: request the chain,
then validate it with `ChainSchema.parse`; either step may fail. -/
def useChainBody (env : Env) (chainName : String) : Except Err Chain :=
  match env.requestChain chainName with
  | .error e => .error e
  | .ok raw => env.parseChain raw

/-- Requests issued by the `useChain` fetcher. -/
def useChainReqs (chainName : String) : List Req :=
  [Req.gql "GetChain" (some chainName)]

/-- Value produced by the `useChain` fetcher: the `catch` converts any
error into `null`. -/
def useChainVal (env : Env) (chainName : String) : Option Chain :=
  match useChainBody env chainName with
  | .ok c => some c
  | .error _ => none

/-- The `useChain` fetcher's run as a promise: thanks to the
`try`/`catch` it always fulfills. -/
def useChainRun (env : Env) (chainName : String) : Except Err (Option Chain) :=
  .ok (useChainVal env chainName)

/-- The full `useChain` hook: key `['/chain', chainName]` when the name
is truthy, `null` otherwise; `fallbackData: null`. -/
def useChain (env : Env) (chainName : Option String) : HookResult (Option Chain) :=
  runSWR (if jsTruthy chainName then some "/chain" else none)
    (fun _ => (useChainVal env (chainName.getD ""), useChainReqs (chainName.getD "")))
    none

/-- Body of the `useChains` fetcher: request all chains and validate
them with `z.array(ChainsSchema)`. -/
def useChainsBody (env : Env) : Except Err (List Chain) :=
  match env.requestChains with
  | .error e => .error e
  | .ok raw => env.parseChains raw

/-- Value of the `useChains` fetcher: its `catch` yields `[]`. -/
def useChainsVal (env : Env) : List Chain :=
  match useChainsBody env with
  | .ok cs => cs
  | .error _ => []

/-- The `useChains` fetcher's run as a promise: always fulfills. -/
def useChainsRun (env : Env) : Except Err (List Chain) :=
  .ok (useChainsVal env)

/-! ## Agent hooks -/

/-- Value of the `useAgents` fetcher:
`companies?.flatMap(company => company.agents.map(agent => ({...agent,
companyName: company.name}))) || []`. -/
def useAgentsVal (companies : Option (List Company)) : List Agent :=
  match companies with
  | none => []
  | some cs => cs.flatMap fun c => c.agents.map fun a => { a with companyName := some c.name }

/-- The `useAgents` fetcher's run: pure, never rejects. -/
def useAgentsRun (companies : Option (List Company)) : Except Err (List Agent) :=
  .ok (useAgentsVal companies)

/-- The render-time prelude of `useAgent`: resolve the search name from
the `name` argument and the `agixt-agent` cookie; when both are falsy
and a primary company with agents exists, pick its default agent (or
its first agent) and write its name to the `agixt-agent` cookie.
Returns the search name, the early-found agent, and the cookie writes
performed. -/
def useAgentPrep (name cookie : Option String) (companies : Option (List Company)) :
    Option String × Option Agent × List (String × String) :=
  let searchName := jsOr name cookie
  if !jsTruthy searchName && companies.getD [] != [] then
    match (companies.getD []).find? (fun c => c.primary) with
    | none => (searchName, none, [])
    | some pc =>
      match pc.agents.find? (fun a => a.default), pc.agents with
      | _, [] => (searchName, none, [])
      | some pa, _ :: _ => (some pa.name, some pa, [("agixt-agent", pa.name)])
      | none, a0 :: _ => (some a0.name, some a0, [("agixt-agent", a0.name)])
  else
    (searchName, none, [])

/-- The last agent named `searchName` found while looping over all
companies (the source loop does not break, so a later company's match
overwrites an earlier one). -/
def lastAgentMatch (cs : List Company) (searchName : Option String) : Option Agent :=
  cs.foldl
    (fun acc c =>
      match c.agents.find? (fun a => some a.name == searchName) with
      | some a => some a
      | none => acc)
    none

/-- Body of the `useAgent` fetcher before its catch, paired with the
requests it issues. With settings it requests and validates the agent
over GraphQL; without, it resolves the agent locally from the company
list and fetches its command list through the context client. -/
def useAgentBody (env : Env) (withSettings : Bool) (searchName : Option String)
    (foundEarly : Option Agent) (companies : Option (List Company)) :
    Except Err AgentAndCommands × List Req :=
  if withSettings then
    let reqs := [Req.gql "GetAgent" searchName]
    match env.requestAgent searchName with
    | .error e => (.error e, reqs)
    | .ok raw =>
      match env.parseAgent raw with
      | .error e => (.error e, reqs)
      | .ok v => (.ok v, reqs)
  else
    let agent :=
      if companies.getD [] != [] && foundEarly == none then
        match lastAgentMatch (companies.getD []) searchName with
        | some a => some a
        | none => foundEarly
      else foundEarly
    match agent with
    | none => (.ok { agent := none, commands := [] }, [])
    | some a =>
      match env.getCommands a.name with
      | .error e => (.error e, [Req.rest "getCommands" (some a.name)])
      | .ok cmds => (.ok { agent := some a, commands := cmds }, [Req.rest "getCommands" (some a.name)])

/-- Value of the `useAgent` fetcher: the catch converts any error into
`{ agent: null, commands: [] }`. -/
def useAgentVal (env : Env) (withSettings : Bool) (searchName : Option String)
    (foundEarly : Option Agent) (companies : Option (List Company)) : AgentAndCommands :=
  match (useAgentBody env withSettings searchName foundEarly companies).1 with
  | .ok v => v
  | .error _ => { agent := none, commands := [] }

/-- The `useAgent` fetcher's run as a promise: always fulfills. -/
def useAgentRun (env : Env) (withSettings : Bool) (searchName : Option String)
    (foundEarly : Option Agent) (companies : Option (List Company)) :
    Except Err AgentAndCommands :=
  .ok (useAgentVal env withSettings searchName foundEarly companies)

/-- Observable result of rendering `useAgent`: data, the resolved
search name, fetcher invocation, requests, and cookie writes. -/
structure AgentHookResult where
  data : AgentAndCommands
  searchName : Option String
  fetcherInvoked : Bool
  requests : List Req
  cookieWrites : List (String × String)
deriving Repr, DecidableEq

/-- The side-effect trace of one `useAgent` render: cookie writes happen
during render, before the fetcher issues its requests. -/
inductive Event where
  | cookieSet (name value : String)
  | request (r : Req)
deriving Repr, DecidableEq

/-- Event trace of an `useAgent` render, in execution order. -/
def AgentHookResult.events (r : AgentHookResult) : List Event :=
  r.cookieWrites.map (fun w => Event.cookieSet w.1 w.2) ++ r.requests.map Event.request

/-- The full `useAgent` hook. Its key
`['/agent?name=' + searchName, companies, withSettings]` is an array and
therefore always truthy, so the fetcher is always invoked. -/
def useAgent (env : Env) (withSettings : Bool) (name : Option String)
    (companies : Option (List Company)) : AgentHookResult :=
  let p := useAgentPrep name env.cookieAgent companies
  let body := useAgentBody env withSettings p.1 p.2.1 companies
  { data := useAgentVal env withSettings p.1 p.2.1 companies
    searchName := p.1
    fetcherInvoked := true
    requests := body.2
    cookieWrites := p.2.2 }

/-! ## Company and user hooks -/

/-- Value of the `useCompanies` fetcher: `user?.companies || []`. -/
def useCompaniesVal (user : Option User) : List Company :=
  match user with
  | none => []
  | some u => u.companies

/-- The `useCompanies` fetcher's run: pure, never rejects. -/
def useCompaniesRun (user : Option User) : Except Err (List Company) :=
  .ok (useCompaniesVal user)

/-- Value of the `useCompany` fetcher: with a truthy id, the first
company with that id; otherwise the first company owning the agent named
by the `agixt-agent` cookie when that cookie is truthy, else the first
primary company; `null` when nothing matches or the list is absent. -/
def useCompanyVal (companies : Option (List Company)) (cookieAgent : Option String)
    (id : Option String) : Option Company :=
  if jsTruthy id then
    match companies with
    | none => none
    | some cs => cs.find? (fun c => c.id == id.getD "")
  else
    match companies with
    | none => none
    | some cs =>
      cs.find? (fun c =>
        if jsTruthy cookieAgent then c.agents.any (fun a => a.name == cookieAgent.getD "")
        else c.primary)

/-- The `useCompany` fetcher's run: its body is pure and additionally
wrapped in a catch, so it never rejects. -/
def useCompanyRun (companies : Option (List Company)) (cookieAgent : Option String)
    (id : Option String) : Except Err (Option Company) :=
  .ok (useCompanyVal companies cookieAgent id)

/-- Body of the `useUser` fetcher: request the user and validate with
`UserSchema.parse`. -/
def useUserBody (env : Env) : Except Err User :=
  match env.requestUser with
  | .error e => .error e
  | .ok raw => env.parseUser raw

/-- Value of the `useUser` fetcher: the catch yields the zeroed user
record. -/
def useUserVal (env : Env) : User :=
  match useUserBody env with
  | .ok u => u
  | .error _ => zeroUser

/-- The `useUser` fetcher's run as a promise: always fulfills. -/
def useUserRun (env : Env) : Except Err User :=
  .ok (useUserVal env)

/-! ## Prompt hooks -/

/-- Body of the `usePromptCategories` fetcher: `response || []`. -/
def usePromptCategoriesBody (env : Env) : Except Err (List String) :=
  match env.requestPromptCategories with
  | .error e => .error e
  | .ok r => .ok (r.getD [])

/-- Value of the `usePromptCategories` fetcher: the catch yields `[]`. -/
def usePromptCategoriesVal (env : Env) : List String :=
  match usePromptCategoriesBody env with
  | .ok v => v
  | .error _ => []

/-- The `usePromptCategories` fetcher's run: always fulfills. -/
def usePromptCategoriesRun (env : Env) : Except Err (List String) :=
  .ok (usePromptCategoriesVal env)

/-- Body of the `usePrompts` fetcher: `response.prompts || []`. -/
def usePromptsBody (env : Env) : Except Err (List Prompt) :=
  match env.requestPrompts with
  | .error e => .error e
  | .ok r => .ok (r.getD [])

/-- Value of the `usePrompts` fetcher: the catch yields `[]`. -/
def usePromptsVal (env : Env) : List Prompt :=
  match usePromptsBody env with
  | .ok v => v
  | .error _ => []

/-- The `usePrompts` fetcher's run: always fulfills. -/
def usePromptsRun (env : Env) : Except Err (List Prompt) :=
  .ok (usePromptsVal env)

/-- Value of the `usePrompt` fetcher:
`prompts?.find(p => p.name === name) || null`. -/
def usePromptVal (prompts : Option (List Prompt)) (name : String) : Option Prompt :=
  match prompts with
  | none => none
  | some ps => ps.find? (fun p => p.name == name)

/-- The `usePrompt` fetcher's run: pure, never rejects. -/
def usePromptRun (prompts : Option (List Prompt)) (name : String) : Except Err (Option Prompt) :=
  .ok (usePromptVal prompts name)

/-! ## Provider, invitation, command-argument hooks -/

/-- Body of the `useProvider` fetcher: request then
`ProviderSchema.parse`, returning `validated.provider`. -/
def useProviderBody (env : Env) (providerName : Option String) : Except Err Provider :=
  match env.requestProvider providerName with
  | .error e => .error e
  | .ok raw => env.parseProvider raw

/-- Value of the `useProvider` fetcher: the catch yields `null`. -/
def useProviderVal (env : Env) (providerName : Option String) : Option Provider :=
  match useProviderBody env providerName with
  | .ok p => some p
  | .error _ => none

/-- The `useProvider` fetcher's run: always fulfills. -/
def useProviderRun (env : Env) (providerName : Option String) :
    Except Err (Option Provider) :=
  .ok (useProviderVal env providerName)

/-- The full `useProvider` hook: key `['/provider', providerName]` when
the name is truthy, `null` otherwise; `fallbackData: null`. -/
def useProvider (env : Env) (providerName : Option String) : HookResult (Option Provider) :=
  runSWR (if jsTruthy providerName then some "/provider" else none)
    (fun _ => (useProviderVal env providerName, [Req.gql "GetProvider" providerName]))
    none

/-- Body of the `useProviders` fetcher: request then
`z.array(ProviderSchema).parse(response.providers)`. -/
def useProvidersBody (env : Env) : Except Err (List Provider) :=
  match env.requestProviders with
  | .error e => .error e
  | .ok raw => env.parseProviders raw

/-- Value of the `useProviders` fetcher: the catch yields `[]`. -/
def useProvidersVal (env : Env) : List Provider :=
  match useProvidersBody env with
  | .ok ps => ps
  | .error _ => []

/-- The `useProviders` fetcher's run: always fulfills. -/
def useProvidersRun (env : Env) : Except Err (List Provider) :=
  .ok (useProvidersVal env)

/-- Body of the `useInvitations` fetcher: request then
`InvitationSchema.parse`, returning `validated.invitations`. -/
def useInvitationsBody (env : Env) (companyId : Option String) :
    Except Err (List Invitation) :=
  match env.requestInvitations companyId with
  | .error e => .error e
  | .ok raw => env.parseInvitations raw

/-- Value of the `useInvitations` fetcher: the catch yields `[]`. -/
def useInvitationsVal (env : Env) (companyId : Option String) : List Invitation :=
  match useInvitationsBody env companyId with
  | .ok is => is
  | .error _ => []

/-- The `useInvitations` fetcher's run: always fulfills. -/
def useInvitationsRun (env : Env) (companyId : Option String) :
    Except Err (List Invitation) :=
  .ok (useInvitationsVal env companyId)

/-- Body of the `useCommandArgs` fetcher: request then
`CommandArgSchema.parse`. -/
def useCommandArgsBody (env : Env) (commandName : String) : Except Err CommandArgs :=
  match env.requestCommandArgs commandName with
  | .error e => .error e
  | .ok raw => env.parseCommandArgs raw

/-- Value of the `useCommandArgs` fetcher: the catch yields `null`. -/
def useCommandArgsVal (env : Env) (commandName : String) : Option CommandArgs :=
  match useCommandArgsBody env commandName with
  | .ok v => some v
  | .error _ => none

/-- The `useCommandArgs` fetcher's run: always fulfills. -/
def useCommandArgsRun (env : Env) (commandName : String) :
    Except Err (Option CommandArgs) :=
  .ok (useCommandArgsVal env commandName)

/-- The full `useCommandArgs` hook: key `['/command_args', commandName]`
when the name is truthy, `null` otherwise; `fallbackData: null`. -/
def useCommandArgs (env : Env) (commandName : String) : HookResult (Option CommandArgs) :=
  runSWR (if commandName != "" then some "/command_args" else none)
    (fun _ => (useCommandArgsVal env commandName, [Req.gql "GetCommandArgs" (some commandName)]))
    none

/-! ## Conversation hooks -/

/-- Body of the `useConversation` fetcher: a GraphQL subscription
request whose `response.conversation` field is returned unvalidated. -/
def useConversationBody (env : Env) (conversationId : String) :
    Except Err (Option Conversation) :=
  env.requestConversation conversationId

/-- Value of the `useConversation` fetcher: the catch yields `null`. -/
def useConversationVal (env : Env) (conversationId : String) : Option Conversation :=
  match useConversationBody env conversationId with
  | .ok c => c
  | .error _ => none

/-- The `useConversation` fetcher's run: always fulfills. -/
def useConversationRun (env : Env) (conversationId : String) :
    Except Err (Option Conversation) :=
  .ok (useConversationVal env conversationId)

/-- The full `useConversation` hook: key
`['/conversation', conversationId]` when the id is truthy, `null`
otherwise; `fallbackData: null`, `refreshInterval: 1000`. -/
def useConversation (env : Env) (conversationId : String) :
    HookResult (Option Conversation) :=
  runSWR (if conversationId != "" then some "/conversation" else none)
    (fun _ =>
      (useConversationVal env conversationId,
        [Req.gql "WatchConversation" (some conversationId)]))
    none

/-- Body of the `useConversations` fetcher: request then
`z.array(ConversationEdgeSchema).parse(response.conversations.edges)`. -/
def useConversationsBody (env : Env) : Except Err (List ConversationEdge) :=
  match env.requestConversations with
  | .error e => .error e
  | .ok raw => env.parseConversations raw

/-- Value of the `useConversations` fetcher: the catch yields `[]`. -/
def useConversationsVal (env : Env) : List ConversationEdge :=
  match useConversationsBody env with
  | .ok es => es
  | .error _ => []

/-- The `useConversations` fetcher's run: always fulfills. -/
def useConversationsRun (env : Env) : Except Err (List ConversationEdge) :=
  .ok (useConversationsVal env)

/-! ## Legacy (`useOld*`) hooks — their fetchers have no try/catch -/

/-- The `useOldCompanies` fetcher's run: it merely awaits
`state.agixt.getCompanies()`; a rejection propagates. -/
def useOldCompaniesRun (env : Env) : Except Err (List Company) :=
  env.getCompaniesOld

/-- The `useOldInvitations` fetcher's run: it merely awaits
`state.agixt.getInvitations(company_id)`; a rejection propagates. -/
def useOldInvitationsRun (env : Env) (companyId : Option String) :
    Except Err (List String) :=
  env.getInvitationsOld companyId

/-- The `useOldActiveCompany` fetcher's run: fetches companies and the
REST user, then dereferences `companyData.id`, `filter(...)[0]` and
`[0].role_id` without guards — each missing value throws a `TypeError`,
and nothing is caught. -/
def useOldActiveCompanyRun (env : Env) (companyData : Option Company) :
    Except Err Company :=
  match env.getCompaniesOld with
  | .error e => .error e
  | .ok companies =>
    match env.getUserRest with
    | .error e => .error e
    | .ok userCompanies =>
      match companyData with
      | none => .error { msg := "TypeError: companyData is null" }
      | some cd =>
        match companies.filter (fun c => c.id == cd.id) with
        | [] => .error { msg := "TypeError: target is undefined" }
        | target :: _ =>
          match userCompanies.filter (fun c => c.id == cd.id) with
          | [] => .error { msg := "TypeError: role source is undefined" }
          | uc :: _ => .ok { target with myRole := some uc.roleId }

/-! ## SWR options passed by each hook -/

/-- The SWR options a hook passes besides `fallbackData`: `none` fields
are options the hook does not set. -/
structure SWROpts where
  refreshInterval : Option Nat
  revalidateOnFocus : Option Bool
  revalidateOnReconnect : Option Bool
deriving Repr, DecidableEq

/-- Options a hook leaves entirely to SWR defaults. -/
def defaultOpts : SWROpts :=
  { refreshInterval := none, revalidateOnFocus := none, revalidateOnReconnect := none }

/-- The options passed by every exported `use*` hook of the hook layer,
transcribed from each `useSWR` call. -/
def hookOptions : List (String × SWROpts) :=
  [ ("useAgents", defaultOpts),
    ("useAgent", defaultOpts),
    ("usePromptCategories", defaultOpts),
    ("usePrompt",
      { refreshInterval := none, revalidateOnFocus := some false,
        revalidateOnReconnect := some false }),
    ("usePrompts", defaultOpts),
    ("useCompanies", defaultOpts),
    ("useCompany", defaultOpts),
    ("useUser", defaultOpts),
    ("useProvider", defaultOpts),
    ("useProviders", defaultOpts),
    ("useInvitations", defaultOpts),
    ("useCommandArgs", defaultOpts),
    ("useChain", defaultOpts),
    ("useChains", defaultOpts),
    ("useConversation",
      { refreshInterval := some 1000, revalidateOnFocus := none,
        revalidateOnReconnect := none }),
    ("useConversations", defaultOpts),
    ("useOldCompanies", defaultOpts),
    ("useOldInvitations", defaultOpts),
    ("useOldActiveCompany", defaultOpts) ]

/-! ## Chain panel handlers

`URLSearchParams` is modelled as an ordered list of key/value pairs:
`set` replaces the value of the first entry with the key (keeping its
position) and removes the later duplicates, appending at the end when
the key is absent; `toString` joins `k=v` pairs with `&` (percent
encoding is immaterial to the properties proved and omitted). -/

/-- First value bound to `k`, as `URLSearchParams.get`. -/
def getParam (ps : List (String × String)) (k : String) : Option String :=
  (ps.find? (fun p => p.1 == k)).map (fun p => p.2)

/-- `URLSearchParams.set`. -/
def setParam : List (String × String) → String → String → List (String × String)
  | [], k, v => [(k, v)]
  | p :: rest, k, v =>
    if p.1 == k then (k, v) :: rest.filter (fun q => q.1 != k)
    else p :: setParam rest k v

/-- `URLSearchParams.toString`: `k=v` pairs joined by `&`. -/
def renderQuery : List (String × String) → String
  | [] => ""
  | [p] => p.1 ++ "=" ++ p.2
  | p :: q :: rest => p.1 ++ "=" ++ p.2 ++ "&" ++ renderQuery (q :: rest)

/-- An observable action of a chain-panel handler, in execution order. -/
inductive PanelEvent where
  | renameCall (oldName newName : String)
  | setRenamingOff
  | navigate (url : String)
deriving Repr, DecidableEq

/-- `handleRename`: await `renameChain(old, newName)` (an unhandled
rejection stops the handler), then leave rename mode and push the
current pathname with the `chain` query parameter set to the new name
and all other parameters carried over. -/
def handleRename (env : Env) (pathname : String) (searchParams : List (String × String))
    (newName : String) : List PanelEvent :=
  let oldName := (getParam searchParams "chain").getD ""
  match env.renameChain oldName newName with
  | .error _ => [PanelEvent.renameCall oldName newName]
  | .ok _ =>
    let current := setParam searchParams "chain" newName
    let search := renderQuery current
    let query := if search != "" then "?" ++ search else ""
    [PanelEvent.renameCall oldName newName, PanelEvent.setRenamingOff,
      PanelEvent.navigate (pathname ++ query)]

/-- Observable outcome of `handleExportChain`: which chain was fetched,
the blob's content, and the download file name. -/
structure ExportOutcome where
  fetchedChain : String
  blobContent : String
  fileName : String
deriving Repr, DecidableEq

/-- JS template interpolation of a nullable string: `null` prints as
`"null"`. -/
def jsInterp : Option String → String
  | none => "null"
  | some s => s

/-- `handleExportChain`: await `getChain(searchParams.get('chain') ?? '')`
(an unhandled rejection stops the handler), then serialize the fetched
chain's `steps` field and trigger a download named
`` `${searchParams.get('chain')}.json` ``. -/
def handleExportChain (env : Env) (searchParams : List (String × String)) :
    Except Err ExportOutcome :=
  let sel := getParam searchParams "chain"
  match env.getChain (sel.getD "") with
  | .error e => .error e
  | .ok chainData =>
    .ok { fetchedChain := sel.getD ""
          blobContent := env.stringify chainData.steps
          fileName := jsInterp sel ++ ".json" }

/-! ## Concrete test fixtures -/

/-- A concrete chain used by the witnesses. -/
def chain0 : Chain :=
  { name := "MyChain", steps := [{ step := 1, agentName := "Alpha", prompt := "Think" }] }

/-- A concrete agent used by the witnesses. -/
def agentAlpha : Agent :=
  { name := "Alpha", companyName := none, default := true }

/-- A concrete agent used by the witnesses. -/
def agentBeta : Agent :=
  { name := "Beta", companyName := none, default := false }

/-- A concrete company used by the witnesses. -/
def companyAcme : Company :=
  { id := "c1", name := "Acme", primary := true, agents := [agentBeta, agentAlpha],
    myRole := none }

/-- A concrete environment where every request succeeds with fixed
data. -/
def env0 : Env :=
  { cookieAgent := none
    requestAgent := fun _ => .ok "raw-agent"
    parseAgent := fun _ => .ok { agent := some agentAlpha, commands := ["cmd"] }
    requestChain := fun _ => .ok "raw-chain"
    parseChain := fun _ => .ok chain0
    requestCommandArgs := fun _ => .ok "raw-command-args"
    parseCommandArgs := fun _ => .ok { args := ["arg1"] }
    requestProvider := fun _ => .ok "raw-provider"
    parseProvider := fun _ => .ok { name := "openai" }
    requestProviders := .ok "raw-providers"
    parseProviders := fun _ => .ok [{ name := "openai" }]
    requestUser := .ok "raw-user"
    parseUser := fun _ => .ok { zeroUser with id := "u1", companies := [companyAcme] }
    requestInvitations := fun _ => .ok "raw-invitations"
    parseInvitations := fun _ => .ok [{ id := "i1", companyId := some "c1" }]
    requestPrompts := .ok (some [{ name := "p1", category := "Default", content := "hi" }])
    requestPromptCategories := .ok (some ["Default"])
    requestChains := .ok "raw-chains"
    parseChains := fun _ => .ok [chain0]
    requestConversation := fun _ => .ok (some { id := "conv1", messages := [] })
    requestConversations := .ok "raw-conversations"
    parseConversations := fun _ => .ok [{ id := "conv1", conversationName := "chat" }]
    getCommands := fun _ => .ok ["cmd"]
    getCompaniesOld := .ok [companyAcme]
    getInvitationsOld := fun _ => .ok []
    getUserRest := .ok [{ id := "c1", roleId := "3" }]
    getChain := fun _ => .ok chain0
    renameChain := fun _ _ => .ok ()
    stringify := fun steps => String.intercalate ";" (steps.map (fun s => s.agentName ++ ":" ++ s.prompt)) }

/-- An environment whose context client rejects `getCompanies`. -/
def envBoom : Env :=
  { env0 with getCompaniesOld := .error { msg := "network down" } }

/-- Concrete query parameters used by the rename witness. -/
def ps0 : List (String × String) :=
  [("tab", "chains"), ("chain", "A")]

/-! ## Helper lemmas on the query-parameter model -/

/-- After `setParam ps k v`, the first value bound to `k` is `v`. -/
theorem getParam_setParam_self (ps : List (String × String)) (k v : String) :
    getParam (setParam ps k v) k = some v := by
  induction ps with
  | nil => simp [setParam, getParam]
  | cons p rest ih =>
    rcases eq_or_ne p.1 k with h | h
    · simp [setParam, h, getParam]
    · simpa [setParam, h, getParam] using ih

/-- `setParam ps k v` leaves the entries with other keys unchanged, in
order and value. -/
theorem filter_setParam_ne (ps : List (String × String)) (k v : String) :
    (setParam ps k v).filter (fun q => q.1 != k) = ps.filter (fun q => q.1 != k) := by
  induction ps with
  | nil => simp [setParam]
  | cons p rest ih =>
    rcases eq_or_ne p.1 k with h | h
    · simp [setParam, h, List.filter_filter]
    · simp [setParam, h, ih]

/-- `setParam` never returns the empty parameter list. -/
theorem setParam_ne_nil (ps : List (String × String)) (k v : String) :
    setParam ps k v ≠ [] := by
  cases ps with
  | nil => simp [setParam]
  | cons p rest =>
    rcases eq_or_ne p.1 k with h | h <;> simp [setParam, h]

/-- A nonempty parameter list renders to a nonempty query string (it
contains at least one `=`). -/
theorem renderQuery_cons_ne_empty (p : String × String) (l : List (String × String)) :
    renderQuery (p :: l) ≠ "" := by
  have h : 0 < (renderQuery (p :: l)).length := by
    cases l with
    | nil =>
      simp [renderQuery, String.length_append]
      exact Or.inl (Or.inr (by decide))
    | cons q rest =>
      simp [renderQuery, String.length_append]
      exact Or.inl (Or.inl (Or.inl (Or.inr (by decide))))
  intro h0
  rw [h0] at h
  simp at h

/-! ## Claim C1 -/

/-- C1 (amended): for the hooks whose cache key is conditional on their
identifying input — `useChain`, `useCommandArgs`, `useProvider`,
`useConversation` — an absent input (undefined or empty) makes the key
`null`, so the hook returns its configured fallback, its fetcher is
never invoked, and no request is issued. -/
theorem conditionalKeyHooks_skip_fetch (env : Env) :
    useChain env none = { data := none, fetcherInvoked := false, requests := [] } ∧
    useChain env (some "") = { data := none, fetcherInvoked := false, requests := [] } ∧
    useCommandArgs env "" = { data := none, fetcherInvoked := false, requests := [] } ∧
    useProvider env none = { data := none, fetcherInvoked := false, requests := [] } ∧
    useProvider env (some "") = { data := none, fetcherInvoked := false, requests := [] } ∧
    useConversation env "" = { data := none, fetcherInvoked := false, requests := [] } :=
  ⟨rfl, rfl, rfl, rfl, rfl, rfl⟩

/-- C1 (counterexample): `useAgent`'s cache key is an array and hence
never `null`, so even with no name argument, no `agixt-agent` cookie and
no companies, its fetcher is invoked, and with `withSettings` it issues
a `GetAgent` request with an undefined name. -/
theorem useAgent_fetches_without_name :
    (useAgent env0 true none none).fetcherInvoked = true ∧
    (useAgent env0 true none none).requests = [Req.gql "GetAgent" none] :=
  ⟨rfl, rfl⟩

/-! ## Claim C3 -/

/-- C3: `useChain` with an undefined name has a `null` key: it returns
`null` without invoking its fetcher. With a non-empty name it issues
one `GetChain` request for that name and returns the schema-validated
chain on success, `null` on any fetch or validation failure. -/
theorem useChain_contract (env : Env) (n : String) (hn : n ≠ "") :
    useChain env none = { data := none, fetcherInvoked := false, requests := [] } ∧
    (useChain env (some n)).fetcherInvoked = true ∧
    (useChain env (some n)).requests = [Req.gql "GetChain" (some n)] ∧
    (∀ c : Chain, useChainBody env n = .ok c → (useChain env (some n)).data = some c) ∧
    (∀ e : Err, useChainBody env n = .error e → (useChain env (some n)).data = none) := by
  have ht : jsTruthy (some n) = true := by simp [jsTruthy, hn]
  refine ⟨rfl, ?_, ?_, ?_, ?_⟩
  · simp [useChain, runSWR, ht]
  · simp [useChain, runSWR, ht, useChainReqs]
  · intro c hc
    simp [useChain, runSWR, ht, useChainVal, hc]
  · intro e he
    simp [useChain, runSWR, ht, useChainVal, he]

/-- Witness for C3 at a concrete environment and chain name. -/
theorem useChain_contract_witness :
    "MyChain" ≠ "" ∧ (useChain env0 (some "MyChain")).data = some chain0 :=
  ⟨by decide, (useChain_contract env0 "MyChain" (by decide)).2.2.2.1 chain0 rfl⟩

/-! ## Claim C2 -/

/-- C2 (amended): every `use*` fetcher except the three legacy
`useOld*` ones catches its fetch and validation errors at the hook
boundary: its run always fulfills, and when the body fails the value is
the hook's configured fallback (here expressed as
`body.toOption.getD fallback`, and `.toOption` alone for the hooks whose
fallback is `null`). The `useOld*` fetchers have no catch. -/
theorem hook_fetchers_never_reject (env : Env) (n pname cname convid : String)
    (companies : Option (List Company)) (user : Option User)
    (prompts : Option (List Prompt)) (cookie id provName compId searchName : Option String)
    (withSettings : Bool) (foundEarly : Option Agent) :
    useChainRun env n = .ok (useChainBody env n).toOption ∧
    useChainsRun env = .ok ((useChainsBody env).toOption.getD []) ∧
    useAgentRun env withSettings searchName foundEarly companies
      = .ok (((useAgentBody env withSettings searchName foundEarly companies).1.toOption).getD
          { agent := none, commands := [] }) ∧
    useAgentsRun companies = .ok (useAgentsVal companies) ∧
    useCompaniesRun user = .ok (useCompaniesVal user) ∧
    useCompanyRun companies cookie id = .ok (useCompanyVal companies cookie id) ∧
    useUserRun env = .ok ((useUserBody env).toOption.getD zeroUser) ∧
    usePromptCategoriesRun env = .ok ((usePromptCategoriesBody env).toOption.getD []) ∧
    usePromptsRun env = .ok ((usePromptsBody env).toOption.getD []) ∧
    usePromptRun prompts pname = .ok (usePromptVal prompts pname) ∧
    useProviderRun env provName = .ok (useProviderBody env provName).toOption ∧
    useProvidersRun env = .ok ((useProvidersBody env).toOption.getD []) ∧
    useInvitationsRun env compId = .ok ((useInvitationsBody env compId).toOption.getD []) ∧
    useCommandArgsRun env cname = .ok (useCommandArgsBody env cname).toOption ∧
    useConversationRun env convid = .ok (((useConversationBody env convid).toOption).getD none) ∧
    useConversationsRun env = .ok ((useConversationsBody env).toOption.getD []) := by
  refine ⟨?_, ?_, ?_, rfl, rfl, rfl, ?_, ?_, ?_, rfl, ?_, ?_, ?_, ?_, ?_, ?_⟩
  · cases h : useChainBody env n <;> simp [useChainRun, useChainVal, h, Except.toOption]
  · cases h : useChainsBody env <;> simp [useChainsRun, useChainsVal, h, Except.toOption]
  · cases h : (useAgentBody env withSettings searchName foundEarly companies).1 <;>
      simp [useAgentRun, useAgentVal, h, Except.toOption]
  · cases h : useUserBody env <;> simp [useUserRun, useUserVal, h, Except.toOption]
  · cases h : usePromptCategoriesBody env <;>
      simp [usePromptCategoriesRun, usePromptCategoriesVal, h, Except.toOption]
  · cases h : usePromptsBody env <;> simp [usePromptsRun, usePromptsVal, h, Except.toOption]
  · cases h : useProviderBody env provName <;>
      simp [useProviderRun, useProviderVal, h, Except.toOption]
  · cases h : useProvidersBody env <;>
      simp [useProvidersRun, useProvidersVal, h, Except.toOption]
  · cases h : useInvitationsBody env compId <;>
      simp [useInvitationsRun, useInvitationsVal, h, Except.toOption]
  · cases h : useCommandArgsBody env cname <;>
      simp [useCommandArgsRun, useCommandArgsVal, h, Except.toOption]
  · cases h : useConversationBody env convid <;>
      simp [useConversationRun, useConversationVal, h, Except.toOption]
  · cases h : useConversationsBody env <;>
      simp [useConversationsRun, useConversationsVal, h, Except.toOption]

/-- C2 (counterexample): the `useOldCompanies` fetcher has no
try/catch — when the context client's `getCompanies` rejects, the
rejection propagates out of the fetcher instead of becoming the
fallback. -/
theorem useOldCompanies_propagates :
    useOldCompaniesRun envBoom = .error { msg := "network down" } :=
  rfl

/-! ## Claim C4 -/

/-- C4: once the rename backend call resolves, `handleRename` first
issues the rename (the call precedes the navigation in the event
trace), then navigates to the current pathname whose `chain` query
parameter is the new name while every parameter with another key keeps
its value and position. -/
theorem handleRename_contract (env : Env) (pathname : String)
    (ps : List (String × String)) (newName : String)
    (hok : env.renameChain ((getParam ps "chain").getD "") newName = .ok ()) :
    handleRename env pathname ps newName =
      [PanelEvent.renameCall ((getParam ps "chain").getD "") newName,
        PanelEvent.setRenamingOff,
        PanelEvent.navigate (pathname ++ "?" ++ renderQuery (setParam ps "chain" newName))] ∧
    getParam (setParam ps "chain" newName) "chain" = some newName ∧
    (setParam ps "chain" newName).filter (fun q => q.1 != "chain")
      = ps.filter (fun q => q.1 != "chain") := by
  refine ⟨?_, getParam_setParam_self ps "chain" newName, filter_setParam_ne ps "chain" newName⟩
  obtain ⟨p, l, hpl⟩ := List.exists_cons_of_ne_nil (setParam_ne_nil ps "chain" newName)
  have hne : renderQuery (setParam ps "chain" newName) ≠ "" := by
    rw [hpl]; exact renderQuery_cons_ne_empty p l
  simp [handleRename, hok, hne, String.append_assoc]

/-- Witness for C4 at concrete parameters `tab=chains&chain=A`, renaming
chain `A` to `B`. -/
theorem handleRename_contract_witness :
    env0.renameChain ((getParam ps0 "chain").getD "") "B" = .ok () ∧
    (handleRename env0 "/p" ps0 "B" =
      [PanelEvent.renameCall ((getParam ps0 "chain").getD "") "B",
        PanelEvent.setRenamingOff,
        PanelEvent.navigate ("/p" ++ "?" ++ renderQuery (setParam ps0 "chain" "B"))] ∧
      getParam (setParam ps0 "chain" "B") "chain" = some "B" ∧
      (setParam ps0 "chain" "B").filter (fun q => q.1 != "chain")
        = ps0.filter (fun q => q.1 != "chain")) :=
  ⟨rfl, handleRename_contract env0 "/p" ps0 "B" rfl⟩

/-! ## Claim C5 -/

/-- C5: for a selected chain name, `handleExportChain` fetches that
chain through the context client, serializes exactly its `steps` field,
and downloads it under the file name `<chain-name>.json`. -/
theorem handleExportChain_contract (env : Env) (ps : List (String × String))
    (name : String) (ch : Chain)
    (hsel : getParam ps "chain" = some name)
    (hfetch : env.getChain name = .ok ch) :
    handleExportChain env ps =
      .ok { fetchedChain := name, blobContent := env.stringify ch.steps,
            fileName := name ++ ".json" } := by
  simp [handleExportChain, hsel, hfetch, jsInterp]

/-- Witness for C5 at a concrete environment with `chain=MyChain`
selected. -/
theorem handleExportChain_contract_witness :
    getParam [("chain", "MyChain")] "chain" = some "MyChain" ∧
    env0.getChain "MyChain" = .ok chain0 ∧
    handleExportChain env0 [("chain", "MyChain")] =
      .ok { fetchedChain := "MyChain", blobContent := env0.stringify chain0.steps,
            fileName := "MyChain" ++ ".json" } :=
  ⟨rfl, rfl, handleExportChain_contract env0 [("chain", "MyChain")] "MyChain" chain0 rfl rfl⟩

/-! ## Claim C7 -/

/-- C7: `useConversation` is the only hook of the layer that sets a
refresh interval, and the interval it sets is 1000 ms; every other hook
leaves `refreshInterval` unset and so revalidates only on key change. -/
theorem useConversation_only_polling_hook :
    ((hookOptions.filter (fun p => p.2.refreshInterval != none)).map (fun p => p.1))
        = ["useConversation"] ∧
    (hookOptions.find? (fun p => p.1 == "useConversation")).map
        (fun p => p.2.refreshInterval) = some (some 1000) :=
  ⟨rfl, rfl⟩

/-! ## Claim C8 -/

/-- C8: `useAgents` returns the concatenation, in company order, of
each company's agents with `companyName` set to the containing
company's name, and the empty list when the company list is undefined;
every returned agent carries its company's name. -/
theorem useAgents_concat (cs : List Company) :
    useAgentsVal none = [] ∧
    useAgentsVal (some cs)
        = (cs.map fun c => c.agents.map fun b => { b with companyName := some c.name }).flatten ∧
    ∀ a ∈ useAgentsVal (some cs), ∃ c ∈ cs, a.companyName = some c.name ∧
        ∃ b ∈ c.agents, a = { b with companyName := some c.name } := by
  refine ⟨rfl, ?_, ?_⟩
  · simp [useAgentsVal, List.flatMap]
  · intro a ha
    simp only [useAgentsVal, List.mem_flatMap, List.mem_map] at ha
    obtain ⟨c, hc, b, hb, rfl⟩ := ha
    exact ⟨c, hc, rfl, b, hb, rfl⟩

/-- Witness for C8: in a one-company list, the returned agent `Beta`
carries the company name `Acme`. -/
theorem useAgents_concat_witness :
    ∃ c ∈ [companyAcme],
      ({ name := "Beta", companyName := some "Acme", default := false } : Agent).companyName
          = some c.name ∧
      ∃ b ∈ c.agents,
        ({ name := "Beta", companyName := some "Acme", default := false } : Agent)
            = { b with companyName := some c.name } :=
  (useAgents_concat [companyAcme]).2.2 _ (by decide)

/-! ## Claim C9 -/

/-- C9: with no name argument, no `agixt-agent` cookie, and a primary
company that has agents, `useAgent` selects the primary company's first
default-flagged agent (its first agent when none is flagged) as the
search target and writes that agent's name to the `agixt-agent` cookie
before the fetcher issues any request. -/
theorem useAgent_default_selection (env : Env) (withSettings : Bool)
    (cs : List Company) (pc : Company) (a0 : Agent) (rest : List Agent)
    (hcookie : env.cookieAgent = none)
    (hprim : cs.find? (fun c => c.primary) = some pc)
    (hagents : pc.agents = a0 :: rest) :
    (useAgent env withSettings none (some cs)).cookieWrites
        = [("agixt-agent", (((a0 :: rest).find? (fun a => a.default)).getD a0).name)] ∧
    (useAgent env withSettings none (some cs)).searchName
        = some (((a0 :: rest).find? (fun a => a.default)).getD a0).name ∧
    (useAgent env withSettings none (some cs)).events
        = Event.cookieSet "agixt-agent" (((a0 :: rest).find? (fun a => a.default)).getD a0).name
            :: (useAgent env withSettings none (some cs)).requests.map Event.request := by
  have hcs : cs ≠ [] := by
    intro h
    rw [h] at hprim
    simp at hprim
  have hprep : useAgentPrep none env.cookieAgent (some cs)
      = (some (((a0 :: rest).find? (fun a => a.default)).getD a0).name,
          some (((a0 :: rest).find? (fun a => a.default)).getD a0),
          [("agixt-agent", (((a0 :: rest).find? (fun a => a.default)).getD a0).name)]) := by
    rw [hcookie]
    have hne : (cs != []) = true := by simpa using hcs
    simp only [useAgentPrep, jsOr, jsTruthy, Option.getD_some, hne, Bool.not_false,
      Bool.and_self, if_false, if_true, Bool.true_and, hprim, hagents]
    cases hfind : (a0 :: rest).find? (fun a => a.default) with
    | none => simp
    | some pa => simp
  refine ⟨?_, ?_, ?_⟩
  · simp [useAgent, hprep]
  · simp [useAgent, hprep]
  · simp [useAgent, hprep, AgentHookResult.events]

/-- Witness for C9: with no cookie and the primary company `Acme` whose
agents are `Beta` (not default) then `Alpha` (default), the cookie write
records `Alpha` and precedes the fetch. -/
theorem useAgent_default_selection_witness :
    env0.cookieAgent = none ∧
    (useAgent env0 false none (some [companyAcme])).cookieWrites
        = [("agixt-agent", (((agentBeta :: [agentAlpha]).find? (fun a => a.default)).getD agentBeta).name)] ∧
    (useAgent env0 false none (some [companyAcme])).searchName
        = some (((agentBeta :: [agentAlpha]).find? (fun a => a.default)).getD agentBeta).name ∧
    (useAgent env0 false none (some [companyAcme])).events
        = Event.cookieSet "agixt-agent"
              (((agentBeta :: [agentAlpha]).find? (fun a => a.default)).getD agentBeta).name
            :: (useAgent env0 false none (some [companyAcme])).requests.map Event.request :=
  ⟨rfl, useAgent_default_selection env0 false [companyAcme] companyAcme agentBeta [agentAlpha]
    rfl rfl rfl⟩

/-! ## Claim C10 -/

/-- C10: `useCompany` without an id returns the first company whose
agents include the one named by a set `agixt-agent` cookie, otherwise
(cookie unset) the first company flagged primary; with a truthy id it
returns the first company with that id; in every mode it returns `null`
when nothing matches or the company list is undefined. -/
theorem useCompany_selection (cs : List Company) (i s : String)
    (hi : i ≠ "") (hs : s ≠ "") :
    useCompanyVal none (some s) (some i) = none ∧
    useCompanyVal none (some s) none = none ∧
    useCompanyVal (some cs) none (some i) = cs.find? (fun c => c.id == i) ∧
    useCompanyVal (some cs) (some s) none
        = cs.find? (fun c => c.agents.any (fun a => a.name == s)) ∧
    useCompanyVal (some cs) none none = cs.find? (fun c => c.primary) := by
  have hti : jsTruthy (some i) = true := by simp [jsTruthy, hi]
  have hts : jsTruthy (some s) = true := by simp [jsTruthy, hs]
  have h0 : jsTruthy none = false := rfl
  refine ⟨?_, ?_, ?_, ?_, ?_⟩
  · simp [useCompanyVal, hti]
  · simp [useCompanyVal, h0]
  · simp [useCompanyVal, hti]
  · simp [useCompanyVal, h0, hts]
  · simp [useCompanyVal, h0]

/-- Witness for C10 at the one-company list `Acme`. -/
theorem useCompany_selection_witness :
    useCompanyVal none (some "Alpha") (some "c1") = none ∧
    useCompanyVal none (some "Alpha") none = none ∧
    useCompanyVal (some [companyAcme]) none (some "c1")
        = [companyAcme].find? (fun c => c.id == "c1") ∧
    useCompanyVal (some [companyAcme]) (some "Alpha") none
        = [companyAcme].find? (fun c => c.agents.any (fun a => a.name == "Alpha")) ∧
    useCompanyVal (some [companyAcme]) none none
        = [companyAcme].find? (fun c => c.primary) :=
  useCompany_selection [companyAcme] "c1" "Alpha" (by decide) (by decide)

end AGiXT
